import Mathlib

/-!
Shallow embedding of the `pactree` installation pipeline, covering the two
source files `crates/core/src/io/fetch.rs` (download engine) and
`src/cli/add.rs` (dependency / URL / size resolution systems).

Bytes are modelled as `Nat`, file contents as `List Nat`, the filesystem as an
association list from path strings to contents.  Network interaction is passed
in explicitly: a download sees the outcome of its single GET request (either a
transport error or a response carrying a declared content length and a stream
of chunk results), and each size probe sees the outcome of its HEAD request.
-/

deriving instance DecidableEq for Except

namespace PacTree

/-- A generic association-list lookup, used for the filesystem, header maps,
bottle-file maps and entity storages. -/
def lookupA {κ α : Type} [DecidableEq κ] : List (κ × α) → κ → Option α
  | [], _ => none
  | (k, v) :: rest, key => if k = key then some v else lookupA rest key

/-- Association-list update: replaces the binding of `key` if present,
otherwise appends a new binding. -/
def insertA {κ α : Type} [DecidableEq κ] : List (κ × α) → κ → α → List (κ × α)
  | [], key, v => [(key, v)]
  | (k, w) :: rest, key, v =>
    if k = key then (k, v) :: rest else (k, w) :: insertA rest key v

/-- Association-list removal of every binding of `key`. -/
def eraseA {κ α : Type} [DecidableEq κ] : List (κ × α) → κ → List (κ × α)
  | [], _ => []
  | (k, w) :: rest, key =>
    if k = key then eraseA rest key else (k, w) :: eraseA rest key

/-- File contents: a list of bytes. -/
abbrev Bytes := List Nat

/-- The filesystem visible to a download: path → contents. -/
abbrev Fs := List (String × Bytes)

/-- Structure `DownloadState` from `fetch.rs`: the progress report `{current, max}`. -/
structure DownloadState where
  current : Nat
  max : Nat
deriving DecidableEq, Repr

/-- An opaque transport error (`reqwest::Error`), identified by a code. -/
structure ReqError where
  code : Nat
deriving DecidableEq, Repr

/-- The response to the GET request in `DownloadTask::run`:
`content_length()` and the chunk stream `bytes_stream()`, each chunk either
bytes or a transport error. -/
structure Resp where
  contentLength : Option Nat
  chunks : List (Except ReqError Bytes)
deriving DecidableEq, Repr

/-- Outcome of `client.get(url).send()`: transport error or a response. -/
abbrev Net := Except ReqError Resp

/-- Type `Progress` from `crate::progress` (not under the given sources): the spec
only requires that each task owns a progress tracker created from a default
(zero) state; it is modelled by its initial state. -/
structure Progress where
  init : DownloadState
deriving DecidableEq, Repr

/-- Constructor `Progress::new`. -/
def Progress.new (d : DownloadState) : Progress := ⟨d⟩

/-- Structure `DownloadTask` from `fetch.rs`: url, destination filename, optional
expected sha256, force flag, optional progress tracker. -/
structure DownloadTask where
  url : String
  filename : String
  sha256 : Option String
  force : Bool
  tracker : Option Progress
deriving DecidableEq, Repr

/-- The error enum of `crates/core/src/error.rs`.  Only `DownloadFailed` and
`MalformedUrl` are visible in `fetch.rs`; `ChecksumMismatch` is modelled from
the spec ("mismatch is `ChecksumMismatch`, distinct from `DownloadFailed`"),
and `When` stands for the file-I/O errors produced by the `when` context
helper. -/
inductive CoreError where
  | DownloadFailed (task : DownloadTask) (error : ReqError)
  | MalformedUrl (url : String)
  | ChecksumMismatch (path : String) (expected : String) (actual : String)
  | When (context : String) (path : String)
deriving DecidableEq, Repr

/-- Modelled from the spec: `tmp_path` lives in `io/read.rs`, which is not
among the given sources; per the spec the temp file is the sibling path
`<dest>.part`, so `tmp_path` appends the given suffix to the filename. -/
def tmp_path (filename : String) (suffix : String) : String :=
  filename ++ suffix

/-- The chunk loop of `DownloadTask::run` (`while let Some(bytes) =
stream.next().await`): accumulates bytes into the temp file, pushes a
`{current, max}` event after each chunk when a tracker is present, and aborts
with `DownloadFailed` on the first chunk error.  Returns the result, the bytes
written to the temp file so far, and the emitted events. -/
def runLoop (task : DownloadTask) (length : Nat) (acc : Bytes)
    (events : List DownloadState) :
    List (Except ReqError Bytes) →
      Except CoreError Bytes × Bytes × List DownloadState
  | [] => (.ok acc, acc, events)
  | .error e :: _ => (.error (.DownloadFailed task e), acc, events)
  | .ok bytes :: rest =>
    let acc' := acc ++ bytes
    let events' :=
      match task.tracker with
      | some _ => events ++ [⟨acc'.length, length⟩]
      | none => events
    runLoop task length acc' events' rest

/-- The observable outcome of `DownloadTask::run`: its return value, the
filesystem afterwards, the number of network requests issued, and the progress
events pushed to the tracker. -/
structure RunOut where
  result : Except CoreError DownloadState
  fs : Fs
  requests : Nat
  events : List DownloadState
deriving DecidableEq, Repr

/-- Method `DownloadTask::run` from `fetch.rs`: if `!force` and the destination
exists, return its length as both `current` and `max` with no network I/O;
otherwise GET the url, stream the chunks to `tmp_path(filename, ".part")`,
and on completion sync and rename the temp file onto the destination.  The
local file operations (`create`, `write_all`, `sync_all`, `rename`) are
modelled as infallible. -/
def DownloadTask.run (task : DownloadTask) (fs : Fs) (net : Net) : RunOut :=
  if task.force = false ∧ (lookupA fs task.filename).isSome then
    let length := ((lookupA fs task.filename).getD []).length
    { result := .ok ⟨length, length⟩, fs := fs, requests := 0, events := [] }
  else
    match net with
    | .error e =>
      { result := .error (.DownloadFailed task e), fs := fs, requests := 1,
        events := [] }
    | .ok resp =>
      let length := resp.contentLength.getD 0
      let tmp := tmp_path task.filename ".part"
      let fs₁ := insertA fs tmp []
      match runLoop task length [] [] resp.chunks with
      | (.error err, written, events) =>
        { result := .error err, fs := insertA fs₁ tmp written, requests := 1,
          events := events }
      | (.ok content, _, events) =>
        { result := .ok ⟨content.length, length⟩,
          fs := insertA (eraseA (insertA fs₁ tmp content) tmp) task.filename
            content,
          requests := 1, events := events }

/-- Function `into_url` from `fetch.rs`: URL parsing is performed by the external
`reqwest` library, whose outcome is passed in as `parsed`; a parse failure is
mapped to `MalformedUrl` carrying the original input string. -/
def into_url (url : String) (parsed : Option String) : Except CoreError String :=
  match parsed with
  | some u => .ok u
  | none => .error (.MalformedUrl url)

/-- Constructor `DownloadTask::new` from `fetch.rs`: parse the url, and on success build a
task with `force = false` and a freshly created tracker. -/
def DownloadTask.new (url : String) (filename : String) (sha256 : Option String)
    (parsed : Option String) : Except CoreError DownloadTask :=
  match into_url url parsed with
  | .error e => .error e
  | .ok u =>
    .ok { url := u, filename := filename, sha256 := sha256, force := false,
          tracker := some (Progress.new ⟨0, 0⟩) }

/-- Method `DownloadTask::force`. -/
def DownloadTask.setForce (task : DownloadTask) (force : Bool) : DownloadTask :=
  { task with force := force }

/-- The value returned by `download_db`: a join handle of unit (the spawned
task's result is discarded by `let _ = ...`), the event stream of the task's
tracker, and the resulting filesystem and request count of the spawned run. -/
structure DbOut where
  handle : Unit
  events : List DownloadState
  fs : Fs
  requests : Nat
deriving DecidableEq, Repr

/-- Function `download_db` from `fetch.rs`: build a task with `DownloadTask::new`
(no expected sha256), take its tracker's event stream, then spawn
`task.force(true).run()` and discard the run's result. -/
def download_db (url : String) (path : String) (parsed : Option String)
    (fs : Fs) (net : Net) : Except CoreError DbOut :=
  match DownloadTask.new url path none parsed with
  | .error e => .error e
  | .ok task =>
    let out := (task.setForce true).run fs net
    .ok { handle := (), events := out.events, fs := out.fs,
          requests := out.requests }

/-- Modelled from the spec: `check_sha256` (imported by `add.rs` and not among
the given sources) recomputes the hash of the file at `path` and compares it
to the expected sha256; a mismatch is `ChecksumMismatch`.  The hash function
itself is external and passed as a parameter. -/
def check_sha256 (hash : Bytes → String) (fs : Fs) (path : String)
    (expected : String) : Except CoreError Unit :=
  let actual := hash ((lookupA fs path).getD [])
  if actual = expected then .ok () else
    .error (.ChecksumMismatch path expected actual)

/-- Modelled from the spec: "Checksum verification is a separate explicit step
after a successful/skipped download" — run the download, then, when an
expected sha256 is present, check the destination file. -/
def downloadAndVerify (hash : Bytes → String) (task : DownloadTask) (fs : Fs)
    (net : Net) : Except CoreError DownloadState × Fs :=
  let out := task.run fs net
  match out.result with
  | .error e => (.error e, out.fs)
  | .ok st =>
    match task.sha256 with
    | none => (.ok st, out.fs)
    | some expected =>
      match check_sha256 hash out.fs task.filename expected with
      | .error e => (.error e, out.fs)
      | .ok _ => (.ok st, out.fs)

/-! ### Association-list lemmas -/

theorem lookupA_insertA_self {κ α : Type} [DecidableEq κ] (l : List (κ × α))
    (k : κ) (v : α) : lookupA (insertA l k v) k = some v := by
  induction l with
  | nil => simp [insertA, lookupA]
  | cons hd tl ih =>
    obtain ⟨k', w⟩ := hd
    by_cases h : k' = k
    · simp [insertA, lookupA, h]
    · simp [insertA, lookupA, h, ih]

theorem lookupA_insertA_ne {κ α : Type} [DecidableEq κ] (l : List (κ × α))
    (k k' : κ) (v : α) (h : k' ≠ k) :
    lookupA (insertA l k v) k' = lookupA l k' := by
  have h' : k ≠ k' := Ne.symm h
  induction l with
  | nil => simp [insertA, lookupA, h']
  | cons hd tl ih =>
    obtain ⟨k₀, w⟩ := hd
    by_cases h₀ : k₀ = k
    · subst h₀
      simp [insertA, lookupA, h']
    · simp only [insertA, if_neg h₀, lookupA]
      split
      · rfl
      · exact ih

theorem lookupA_eraseA_self {κ α : Type} [DecidableEq κ] (l : List (κ × α))
    (k : κ) : lookupA (eraseA l k) k = none := by
  induction l with
  | nil => simp [eraseA, lookupA]
  | cons hd tl ih =>
    obtain ⟨k₀, w⟩ := hd
    by_cases h₀ : k₀ = k
    · simp [eraseA, h₀, ih]
    · simp [eraseA, lookupA, h₀, ih]

theorem lookupA_eraseA_ne {κ α : Type} [DecidableEq κ] (l : List (κ × α))
    (k k' : κ) (h : k' ≠ k) : lookupA (eraseA l k) k' = lookupA l k' := by
  have h' : k ≠ k' := Ne.symm h
  induction l with
  | nil => simp [eraseA]
  | cons hd tl ih =>
    obtain ⟨k₀, w⟩ := hd
    by_cases h₀ : k₀ = k
    · have he : eraseA ((k₀, w) :: tl) k = eraseA tl k := by simp [eraseA, h₀]
      rw [he, ih]
      have h₁ : k₀ ≠ k' := by rw [h₀]; exact h'
      simp [lookupA, h₁]
    · have he : eraseA ((k₀, w) :: tl) k = (k₀, w) :: eraseA tl k := by
        simp [eraseA, h₀]
      rw [he]
      simp only [lookupA]
      split
      · rfl
      · exact ih

/-- The temp path `<dest>.part` is a different path from `<dest>` itself. -/
theorem tmp_path_ne (filename : String) : tmp_path filename ".part" ≠ filename := by
  intro h
  have hlen : (tmp_path filename ".part").length = filename.length := by rw [h]
  have h5 : (".part" : String).length = 5 := rfl
  simp only [tmp_path, String.length_append, h5] at hlen
  omega

/-! ### The chunk stream -/

/-- The full content of a chunk stream: `some` of the concatenated bytes when
every chunk is `ok`, `none` when some chunk is a transport error. -/
def chunksOkContent : List (Except ReqError Bytes) → Option Bytes
  | [] => some []
  | .ok b :: rest => (chunksOkContent rest).map (fun c => b ++ c)
  | .error _ :: _ => none

theorem runLoop_ok (task : DownloadTask) (length : Nat) :
    ∀ (chunks : List (Except ReqError Bytes)) (acc : Bytes)
      (events : List DownloadState) (c : Bytes),
      chunksOkContent chunks = some c →
      ∃ evs, runLoop task length acc events chunks = (.ok (acc ++ c), acc ++ c, evs) := by
  intro chunks
  induction chunks with
  | nil =>
    intro acc events c hc
    simp only [chunksOkContent, Option.some.injEq] at hc
    subst hc
    exact ⟨events, by simp [runLoop]⟩
  | cons hd tl ih =>
    intro acc events c hc
    cases hd with
    | error e => simp [chunksOkContent] at hc
    | ok b =>
      simp only [chunksOkContent, Option.map_eq_some'] at hc
      obtain ⟨c', hc', rfl⟩ := hc
      obtain ⟨evs, hevs⟩ := ih (acc ++ b)
        (match task.tracker with
         | some _ => events ++ [⟨(acc ++ b).length, length⟩]
         | none => events) c' hc'
      refine ⟨evs, ?_⟩
      simp only [runLoop]
      rw [hevs, List.append_assoc]

theorem runLoop_error (task : DownloadTask) (length : Nat) :
    ∀ (chunks : List (Except ReqError Bytes)) (acc : Bytes)
      (events : List DownloadState),
      chunksOkContent chunks = none →
      ∃ e written evs,
        runLoop task length acc events chunks =
          (.error (.DownloadFailed task e), written, evs) := by
  intro chunks
  induction chunks with
  | nil => intro acc events hc; simp [chunksOkContent] at hc
  | cons hd tl ih =>
    intro acc events hc
    cases hd with
    | error e => exact ⟨e, acc, events, by simp [runLoop]⟩
    | ok b =>
      simp only [chunksOkContent, Option.map_eq_none'] at hc
      obtain ⟨e, written, evs, h⟩ := ih (acc ++ b)
        (match task.tracker with
         | some _ => events ++ [⟨(acc ++ b).length, length⟩]
         | none => events) hc
      exact ⟨e, written, evs, by simp only [runLoop]; rw [h]⟩

/-- Every error produced by the chunk loop is a `DownloadFailed`. -/
theorem runLoop_no_checksum (task : DownloadTask) (length : Nat) :
    ∀ (chunks : List (Except ReqError Bytes)) (acc : Bytes)
      (events : List DownloadState) (p e a : String),
      (runLoop task length acc events chunks).1 ≠
        .error (.ChecksumMismatch p e a) := by
  intro chunks
  induction chunks with
  | nil => intro acc events p e a; simp [runLoop]
  | cons hd tl ih =>
    intro acc events p e a
    cases hd with
    | error err => simp [runLoop]
    | ok b => simp only [runLoop]; apply ih

/-! ### Claim theorems for the download engine -/

/-- C3: with `force = false` and an existing destination file,
`DownloadTask::run` returns immediately with the existing file's length as
both `current` and `max`, issuing no network request and touching nothing. -/
theorem c3_skip_existing_destination (task : DownloadTask) (fs : Fs) (net : Net)
    (content : Bytes) (hforce : task.force = false)
    (hexists : lookupA fs task.filename = some content) :
    task.run fs net =
      { result := .ok ⟨content.length, content.length⟩, fs := fs,
        requests := 0, events := [] } := by
  simp [DownloadTask.run, hforce, hexists]

theorem c3_skip_existing_destination_witness :
    DownloadTask.run ⟨"https://a/b", "f", none, false, none⟩ [("f", [3, 4, 5])]
        (.error ⟨0⟩) =
      { result := .ok ⟨3, 3⟩, fs := [("f", [3, 4, 5])], requests := 0,
        events := [] } :=
  c3_skip_existing_destination ⟨"https://a/b", "f", none, false, none⟩
    [("f", [3, 4, 5])] (.error ⟨0⟩) [3, 4, 5] rfl (by decide)

/-- C10: `DownloadTask::new` returns `MalformedUrl` carrying the original
input string whenever URL parsing fails; on success it returns a task with
`force = false` and a freshly created progress tracker. -/
theorem c10_new_malformed_or_fresh (url filename : String)
    (sha256 : Option String) :
    DownloadTask.new url filename sha256 none = .error (.MalformedUrl url) ∧
    ∀ u, DownloadTask.new url filename sha256 (some u) =
      .ok { url := u, filename := filename, sha256 := sha256, force := false,
            tracker := some (Progress.new ⟨0, 0⟩) } := by
  exact ⟨rfl, fun u => rfl⟩

/-- Unfolding of `DownloadTask.run` on the network path with a failing GET. -/
theorem run_netPath_err (task : DownloadTask) (fs : Fs) (e : ReqError)
    (hcond : ¬(task.force = false ∧ (lookupA fs task.filename).isSome = true)) :
    task.run fs (.error e) = ⟨.error (.DownloadFailed task e), fs, 1, []⟩ := by
  simp only [DownloadTask.run, if_neg hcond]

/-- Unfolding of `DownloadTask.run` on the network path when the chunk loop
aborts with an error. -/
theorem run_netPath_ok_err (task : DownloadTask) (fs : Fs) (resp : Resp)
    (err : CoreError) (written : Bytes) (evs : List DownloadState)
    (hcond : ¬(task.force = false ∧ (lookupA fs task.filename).isSome = true))
    (hrl : runLoop task (resp.contentLength.getD 0) [] [] resp.chunks =
      (.error err, written, evs)) :
    task.run fs (.ok resp) =
      ⟨.error err,
       insertA (insertA fs (tmp_path task.filename ".part") [])
         (tmp_path task.filename ".part") written, 1, evs⟩ := by
  simp only [DownloadTask.run, if_neg hcond]
  rw [hrl]

/-- Unfolding of `DownloadTask.run` on the network path when the chunk loop
completes. -/
theorem run_netPath_ok_ok (task : DownloadTask) (fs : Fs) (resp : Resp)
    (content written : Bytes) (evs : List DownloadState)
    (hcond : ¬(task.force = false ∧ (lookupA fs task.filename).isSome = true))
    (hrl : runLoop task (resp.contentLength.getD 0) [] [] resp.chunks =
      (.ok content, written, evs)) :
    task.run fs (.ok resp) =
      ⟨.ok ⟨content.length, resp.contentLength.getD 0⟩,
       insertA (eraseA (insertA (insertA fs (tmp_path task.filename ".part") [])
         (tmp_path task.filename ".part") content)
         (tmp_path task.filename ".part")) task.filename content, 1, evs⟩ := by
  simp only [DownloadTask.run, if_neg hcond]
  rw [hrl]

/-- C2: on the network path, `DownloadTask::run` streams into the sibling
`<dest>.part` temp file and renames onto the destination only after the full
stream succeeded: a transport error on the GET or a chunk error mid-stream
aborts with `DownloadFailed` carrying the cause and leaves the destination
untouched (only the `.part` sibling may differ), while a complete stream
leaves the destination holding exactly the full content with the temp file
gone. -/
theorem c2_atomic_commit (task : DownloadTask) (fs : Fs) (net : Net)
    (hnet : task.force = true ∨ lookupA fs task.filename = none) :
    (∀ e, net = .error e →
      task.run fs net = ⟨.error (.DownloadFailed task e), fs, 1, []⟩) ∧
    (∀ resp, net = .ok resp → chunksOkContent resp.chunks = none →
      (∃ e, (task.run fs net).result = .error (.DownloadFailed task e)) ∧
      lookupA (task.run fs net).fs task.filename = lookupA fs task.filename ∧
      (∀ p, p ≠ tmp_path task.filename ".part" →
        lookupA (task.run fs net).fs p = lookupA fs p)) ∧
    (∀ resp c, net = .ok resp → chunksOkContent resp.chunks = some c →
      (task.run fs net).result = .ok ⟨c.length, resp.contentLength.getD 0⟩ ∧
      lookupA (task.run fs net).fs task.filename = some c ∧
      lookupA (task.run fs net).fs (tmp_path task.filename ".part") = none) := by
  have hcond : ¬(task.force = false ∧ (lookupA fs task.filename).isSome = true) := by
    rcases hnet with h | h
    · intro hc; rw [h] at hc; exact absurd hc.1 (by decide)
    · intro hc; rw [h] at hc; simp at hc
  refine ⟨?_, ?_, ?_⟩
  · intro e hne
    subst hne
    simp only [DownloadTask.run, if_neg hcond]
  · intro resp hne hchunks
    subst hne
    obtain ⟨e, written, evs, hrl⟩ :=
      runLoop_error task (resp.contentLength.getD 0) resp.chunks [] [] hchunks
    have hrun : task.run fs (.ok resp) =
        { result := .error (.DownloadFailed task e),
          fs := insertA (insertA fs (tmp_path task.filename ".part") [])
            (tmp_path task.filename ".part") written,
          requests := 1, events := evs } := by
      simp only [DownloadTask.run, if_neg hcond]
      rw [hrl]
    rw [hrun]
    refine ⟨⟨e, rfl⟩, ?_, ?_⟩
    · rw [lookupA_insertA_ne _ _ _ _ (Ne.symm (tmp_path_ne task.filename)),
        lookupA_insertA_ne _ _ _ _ (Ne.symm (tmp_path_ne task.filename))]
    · intro p hp
      rw [lookupA_insertA_ne _ _ _ _ hp, lookupA_insertA_ne _ _ _ _ hp]
  · intro resp c hne hchunks
    subst hne
    obtain ⟨evs, hrl⟩ :=
      runLoop_ok task (resp.contentLength.getD 0) resp.chunks [] [] c hchunks
    rw [List.nil_append] at hrl
    have hrun : task.run fs (.ok resp) =
        { result := .ok ⟨c.length, resp.contentLength.getD 0⟩,
          fs := insertA (eraseA (insertA (insertA fs
              (tmp_path task.filename ".part") [])
              (tmp_path task.filename ".part") c)
              (tmp_path task.filename ".part")) task.filename c,
          requests := 1, events := evs } := by
      simp only [DownloadTask.run, if_neg hcond]
      rw [hrl]
    rw [hrun]
    refine ⟨rfl, lookupA_insertA_self _ _ _, ?_⟩
    rw [lookupA_insertA_ne _ _ _ _ (tmp_path_ne task.filename)]
    exact lookupA_eraseA_self _ _

theorem c2_atomic_commit_witness :
    lookupA (DownloadTask.run ⟨"u", "f", none, true, none⟩ [("f", [9])]
      (.ok ⟨some 5, [.ok [1], .error ⟨7⟩]⟩)).fs "f" = some [9] ∧
    (DownloadTask.run ⟨"u", "f", none, true, none⟩ [("f", [9])]
      (.ok ⟨some 2, [.ok [1, 2]]⟩)).result = .ok ⟨2, 2⟩ ∧
    lookupA (DownloadTask.run ⟨"u", "f", none, true, none⟩ [("f", [9])]
      (.ok ⟨some 2, [.ok [1, 2]]⟩)).fs "f" = some [1, 2] ∧
    lookupA (DownloadTask.run ⟨"u", "f", none, true, none⟩ [("f", [9])]
      (.ok ⟨some 2, [.ok [1, 2]]⟩)).fs "f.part" = none := by
  have h1 := c2_atomic_commit ⟨"u", "f", none, true, none⟩ [("f", [9])]
    (.ok ⟨some 5, [.ok [1], .error ⟨7⟩]⟩) (Or.inl rfl)
  have h2 := c2_atomic_commit ⟨"u", "f", none, true, none⟩ [("f", [9])]
    (.ok ⟨some 2, [.ok [1, 2]]⟩) (Or.inl rfl)
  refine ⟨?_, ?_, ?_, ?_⟩
  · exact ((h1.2.1 _ rfl (by decide)).2.1).trans (by decide)
  · exact (h2.2.2 _ [1, 2] rfl (by decide)).1
  · exact (h2.2.2 _ [1, 2] rfl (by decide)).2.1
  · exact (h2.2.2 _ [1, 2] rfl (by decide)).2.2

/-- C4: the download itself never produces a `ChecksumMismatch` (all its
errors are `DownloadFailed`); verification is a separate step after a
successful (or skipped) download, and a hash mismatch there produces
`ChecksumMismatch`, a variant distinct from the transport error
`DownloadFailed`. -/
theorem c4_checksum_separate_step (hash : Bytes → String) (task : DownloadTask)
    (fs : Fs) (net : Net) (expected : String) :
    (∀ p e a, (task.run fs net).result ≠ .error (.ChecksumMismatch p e a)) ∧
    (∀ st, (task.run fs net).result = .ok st → task.sha256 = some expected →
      hash ((lookupA (task.run fs net).fs task.filename).getD []) ≠ expected →
      downloadAndVerify hash task fs net =
        (.error (.ChecksumMismatch task.filename expected
          (hash ((lookupA (task.run fs net).fs task.filename).getD []))),
         (task.run fs net).fs)) ∧
    (∀ p e a (t : DownloadTask) (r : ReqError),
      CoreError.ChecksumMismatch p e a ≠ CoreError.DownloadFailed t r) := by
  refine ⟨?_, ?_, ?_⟩
  · intro p e a
    by_cases hcond : task.force = false ∧ (lookupA fs task.filename).isSome = true
    · simp only [DownloadTask.run, if_pos hcond]
      simp
    · cases net with
      | error e' =>
        rw [run_netPath_err task fs e' hcond]
        simp
      | ok resp =>
        have hno := runLoop_no_checksum task (resp.contentLength.getD 0)
          resp.chunks [] [] p e a
        rcases hr : runLoop task (resp.contentLength.getD 0) [] [] resp.chunks
          with ⟨res, written, evs⟩
        rw [hr] at hno
        cases res with
        | error err =>
          rw [run_netPath_ok_err task fs resp err written evs hcond hr]
          simpa using hno
        | ok content =>
          rw [run_netPath_ok_ok task fs resp content written evs hcond hr]
          simp
  · intro st hok hsha hne
    simp only [downloadAndVerify]
    rw [hok, hsha]
    simp only [check_sha256]
    rw [if_neg hne]
  · exact fun p e a t r h => CoreError.noConfusion h

theorem c4_checksum_separate_step_witness :
    downloadAndVerify (fun _ => "sha-actual")
      ⟨"u", "f", some "sha-expected", false, none⟩ [("f", [1, 2])]
      (.error ⟨0⟩) =
      (.error (.ChecksumMismatch "f" "sha-expected" "sha-actual"),
       [("f", [1, 2])]) := by
  have h := (c4_checksum_separate_step (fun _ => "sha-actual")
    ⟨"u", "f", some "sha-expected", false, none⟩ [("f", [1, 2])]
    (.error ⟨0⟩) "sha-expected").2.1 ⟨2, 2⟩ (by decide) rfl (by decide)
  exact h.trans (by decide)

/-- C9: `download_db` runs its task with `force = true` — so a network request
is issued and the destination is overwritten even when it already exists —
and the spawned task's result is discarded: the returned value carries only a
unit handle and the event stream, and is the same `.ok` value whatever
transport error the run failed with. -/
theorem c9_download_db_forces_and_discards (url path u : String) (fs : Fs)
    (net : Net) :
    download_db url path (some u) fs net =
      .ok { handle := (),
            events := (DownloadTask.run
              ⟨u, path, none, true, some (Progress.new ⟨0, 0⟩)⟩ fs net).events,
            fs := (DownloadTask.run
              ⟨u, path, none, true, some (Progress.new ⟨0, 0⟩)⟩ fs net).fs,
            requests := (DownloadTask.run
              ⟨u, path, none, true, some (Progress.new ⟨0, 0⟩)⟩ fs net).requests } ∧
    (DownloadTask.run ⟨u, path, none, true, some (Progress.new ⟨0, 0⟩)⟩
        fs net).requests = 1 ∧
    (∀ e, download_db url path (some u) fs (.error e) = .ok ⟨(), [], fs, 1⟩) := by
  have hcond :
      ¬((⟨u, path, none, true, some (Progress.new ⟨0, 0⟩)⟩ :
          DownloadTask).force = false ∧ (lookupA fs path).isSome = true) := by
    intro hc
    simp at hc
  refine ⟨rfl, ?_, ?_⟩
  · cases net with
    | error e => rw [run_netPath_err _ fs e hcond]
    | ok resp =>
      rcases hr : runLoop ⟨u, path, none, true, some (Progress.new ⟨0, 0⟩)⟩
        (resp.contentLength.getD 0) [] [] resp.chunks with ⟨res, written, evs⟩
      cases res with
      | error err => rw [run_netPath_ok_err _ fs resp err written evs hcond hr]
      | ok content => rw [run_netPath_ok_ok _ fs resp content written evs hcond hr]
  · intro e
    have h1 : download_db url path (some u) fs (.error e) =
        .ok { handle := (),
              events := (DownloadTask.run ⟨u, path, none, true,
                some (Progress.new ⟨0, 0⟩)⟩ fs (.error e)).events,
              fs := (DownloadTask.run ⟨u, path, none, true,
                some (Progress.new ⟨0, 0⟩)⟩ fs (.error e)).fs,
              requests := (DownloadTask.run ⟨u, path, none, true,
                some (Progress.new ⟨0, 0⟩)⟩ fs (.error e)).requests } := rfl
    rw [h1, run_netPath_err _ fs e hcond]

theorem c9_download_db_forces_and_discards_witness :
    download_db "https://db" "p" (some "https://db/") [("p", [7])]
      (.ok ⟨some 1, [.ok [1]]⟩) = .ok ⟨(), [⟨1, 1⟩], [("p", [1])], 1⟩ ∧
    download_db "https://db" "p" (some "https://db/") [("p", [7])]
      (.error ⟨9⟩) = .ok ⟨(), [], [("p", [7])], 1⟩ := by
  have h := c9_download_db_forces_and_discards "https://db" "p" "https://db/"
    [("p", [7])] (.ok ⟨some 1, [.ok [1]]⟩)
  exact ⟨h.1.trans (by decide), h.2.2 ⟨9⟩⟩

/-!
### `src/cli/add.rs`: the staged pipeline

Entities of the `specs` world are modelled as natural numbers; each component
storage is an association list from entity id to component.
-/

/-- Function `str::replace` from the Rust standard library, specialised to the
single-character pattern used in `add.rs` (`info.name.replace("@", "/")`):
every occurrence of `c` is replaced by `r`. -/
def replaceChar (s : String) (c r : Char) : String :=
  ⟨s.data.map fun a => if a = c then r else a⟩

/-- A bottle variant for one architecture: url, sha256 and the cellar-layout
hint (`bottle.cellar`). -/
structure BottleFile where
  url : String
  sha256 : String
  cellar : String
deriving DecidableEq, Repr

/-- The per-channel bottle data: rebuild count and architecture → file map. -/
structure Bottles where
  rebuild : Nat
  files : List (String × BottleFile)
deriving DecidableEq, Repr

/-- Record `Formula` (external, read-only): the fields read by `add.rs`. -/
structure Formula where
  name : String
  full_name : String
  stable : String
  revision : Nat
  dependencies : List String
  bottle : List (String × Bottles)
deriving DecidableEq, Repr

/-- Enum `RelocateMode` from `crate::meta` (not among the given sources); the spec
only distinguishes a skip mode from ordinary relocation. -/
inductive RelocateMode where
  | default
  | skip
deriving DecidableEq, Repr

/-- Modelled from the spec: the `TryFrom` parse of the cellar-layout hint into
a `RelocateMode` lives in `crate::meta`, not among the given sources; per the
spec some hints parse to a mode and any other hint is a parse failure
(`UnsupportedRelocation`).  The failure carries the offending hint. -/
def parseRelocate (cellar : String) : Except String RelocateMode :=
  if cellar = ":any" then .ok .default
  else if cellar = ":any_skip_relocation" then .ok .skip
  else .error cellar

/-- Record `PackageInfo` from `crate::meta` (not among the given sources): only the
fields read or written by the embedded systems are modelled. -/
structure PackageInfo where
  name : String
  full_name : String
  version : String
  revision : Nat
  version_full : String
  arch : String
  rebuild : Nat
  relocate : RelocateMode
  sha256 : String
  url : String
  size : Nat
  download_size : Nat
  package_name : String
deriving DecidableEq, Repr

/-- Modelled from the spec: `PackageInfo::new` creates a fresh Package record
for `name`, with empty resolution fields and zero size fields. -/
def PackageInfo.new (name : String) : PackageInfo :=
  { name := name, full_name := name, version := "", revision := 0,
    version_full := "", arch := "", rebuild := 0, relocate := .default,
    sha256 := "", url := "", size := 0, download_size := 0,
    package_name := "" }

/-- Modelled from the spec: `PackageInfo::with_name` records the full name,
version and revision; `version_full` is the version combined with a nonzero
revision. -/
def PackageInfo.with_name (info : PackageInfo) (full_name version : String)
    (revision : Nat) : PackageInfo :=
  { info with
    full_name := full_name
    version := version
    revision := revision
    version_full :=
      if revision = 0 then version else version ++ "_" ++ toString revision }

/-- The `Error` enum of `add.rs`.  External payload error types
(`anyhow::Error`, `std::io::Error`, `package::Error`, `serde_json` errors)
are modelled as strings; `reqwest::Error` as `ReqError`. -/
inductive AddError where
  | Resolve (name : String)
  | Prebuilt (info : PackageInfo)
  | ResolveNet (info : PackageInfo) (error : ReqError)
  | Download (info : PackageInfo) (error : String)
  | Io (path : String) (error : String)
  | Package (info : PackageInfo) (error : String)
  | PackageInfoErr (info : PackageInfo) (error : String)
  | PackageRuby (info : PackageInfo) (error : String)
  | PackageRelocation (info : PackageInfo) (file : String) (error : String)
  | PostInstall (info : PackageInfo) (error : String)
  | Unimplemented (info : PackageInfo) (what : String) (error : String)
deriving DecidableEq, Repr

/-- Enum `Stage` from `add.rs`: the enum has exactly the two variants `Resolve`
and `ResolveUrl`. -/
inductive Stage where
  | Resolve
  | ResolveUrl
deriving DecidableEq, Repr

/-- Map `config::PackageMap`: name → entity id. -/
abbrev PackageMap := List (String × Nat)

/-- A component storage of the `specs` world. -/
abbrev Storage (α : Type) := List (Nat × α)

/-- Record for `Mirror` entries of the Config mirror list. -/
structure Mirror where
  url : String
  oci : Bool
deriving DecidableEq, Repr

/-- Record `Config` (read-only): the fields read by the embedded systems. -/
structure Config where
  target : String
  os_fallback : List String
  mirror_list : List Mirror
  cache_dir : String
deriving DecidableEq, Repr

/-- The `ResolveDeps` system state: FIFO work queue and accumulated errors. -/
structure ResolveDeps where
  names : List String
  errors : List AddError
deriving DecidableEq, Repr

/-- System `ResolveDeps::run` from `add.rs`.  The source iterates with
`for name in self.names.pop_front()`: `pop_front` returns an `Option`, so the
loop body runs for at most the single front element of the queue.  Per name:
missing from the package map or the formula storage → record
`Error::Resolve`; already in the info storage → skip; otherwise insert a
fresh `PackageInfo` built from the formula, enqueue the formula's
dependencies, and insert `Stage::Resolve`. -/
def ResolveDeps.run (s : ResolveDeps) (map : PackageMap)
    (formulas : Storage Formula) (infos : Storage PackageInfo)
    (stages : Storage Stage) :
    ResolveDeps × Storage PackageInfo × Storage Stage :=
  match s.names with
  | [] => (s, infos, stages)
  | name :: rest =>
    match lookupA map name with
    | none =>
      ({ names := rest, errors := s.errors ++ [.Resolve name] }, infos, stages)
    | some id =>
      if (lookupA infos id).isSome then
        ({ s with names := rest }, infos, stages)
      else
        match lookupA formulas id with
        | none =>
          ({ names := rest, errors := s.errors ++ [.Resolve name] }, infos,
           stages)
        | some formula =>
          let info := PackageInfo.new formula.name
          let version := formula.stable
          let info := info.with_name formula.full_name version formula.revision
          ({ names := rest ++ formula.dependencies, errors := s.errors },
           insertA infos id info, insertA stages id .Resolve)

/-- Structured log lines emitted by `ResolveUrlSystem::run` (the `error!` and
`debug!` messages), keeping the interpolated values of the format string. -/
inductive LogMsg where
  | channelMissing (name : String)
  | noBottle (target : String) (available : List String) (name : String)
  | urlDebug (name : String) (url : String)
deriving DecidableEq, Repr

/-- The architecture-selection loop of `ResolveUrlSystem::run`:
`for arch in vec![config.target, "all"].chain(config.os_fallback)`, returning
the first architecture present in the bottle file map together with its
bottle. -/
def findArch (files : List (String × BottleFile)) :
    List String → Option (String × BottleFile)
  | [] => none
  | arch :: rest =>
    match lookupA files arch with
    | some b => some (arch, b)
    | none => findArch files rest

/-- The outcome of one iteration of `ResolveUrlSystem::run` for a single
joined entity: the (possibly mutated) `PackageInfo`, the errors pushed, and
the log lines emitted. -/
structure UrlStep where
  info : PackageInfo
  errors : List AddError
  logs : List LogMsg
deriving DecidableEq, Repr

/-- The body of the per-entity loop of `ResolveUrlSystem::run`: find the
stable-channel bottle set, select the architecture, store rebuild count,
relocation mode and sha256, and build the URL from the first mirror (OCI or
plain) or, with no mirrors, from the bottle's direct URL. -/
def resolveUrlStep (config : Config) (formula : Formula)
    (info : PackageInfo) : UrlStep :=
  match lookupA formula.bottle "stable" with
  | none =>
    { info := info, errors := [.Prebuilt info],
      logs := [.channelMissing formula.name] }
  | some bottles =>
    match findArch bottles.files
        (config.target :: "all" :: config.os_fallback) with
    | none =>
      { info := info, errors := [.Prebuilt info],
        logs := [.noBottle config.target (bottles.files.map Prod.fst)
          info.name] }
    | some (arch, bottle) =>
      let info := { info with arch := arch }
      let info := { info with rebuild := bottles.rebuild }
      match parseRelocate bottle.cellar with
      | .error e =>
        { info := info, errors := [.Unimplemented info "relocate" e],
          logs := [] }
      | .ok mode =>
        let info := { info with relocate := mode, sha256 := bottle.sha256 }
        let info :=
          match config.mirror_list with
          | mirror :: _ =>
            if mirror.oci then
              { info with url := mirror.url ++ "/" ++
                  replaceChar info.name '@' '/' ++ "/blobs/sha256:" ++
                  info.sha256 }
            else
              let rebuild :=
                if info.rebuild ≠ 0 then "." ++ toString info.rebuild else ""
              { info with url := mirror.url ++ "/" ++ info.name ++ "-" ++
                  info.version_full ++ "." ++ info.arch ++ ".bottle" ++
                  rebuild ++ ".tar.gz" }
          | [] => { info with url := bottle.url }
        { info := info, errors := [], logs := [.urlDebug info.name info.url] }

/-- One joined entity of `ResolveUrlSystem::run`: formula, mutable info and
its stage component. -/
structure UrlEntry where
  id : Nat
  formula : Formula
  info : PackageInfo
  stage : Stage
deriving DecidableEq, Repr

/-- System `ResolveUrlSystem::run` over the joined entities.  The system declares
`WriteStorage<Stage>` but never inserts into it, so each entry's stage is
carried through unchanged. -/
def resolveUrlRun (config : Config) :
    List UrlEntry → List UrlEntry × List AddError × List LogMsg
  | [] => ([], [], [])
  | e :: rest =>
    let step := resolveUrlStep config e.formula e.info
    ({ e with info := step.info } :: (resolveUrlRun config rest).1,
     step.errors ++ (resolveUrlRun config rest).2.1,
     step.logs ++ (resolveUrlRun config rest).2.2)

/-- The response to a HEAD probe in `ResolveSize::run`: status, the
`content_length()` convenience accessor (unreliable for HEAD), and the raw
header map. -/
structure HeadResp where
  status : Nat
  contentLength : Option Nat
  headers : List (String × String)
deriving DecidableEq, Repr

/-- The outcome of one iteration of `ResolveSize::run` for a single package:
the (possibly mutated) info, errors pushed, the number of HEAD requests
issued, and whether the cached-archive fast path was taken. -/
structure SizeStep where
  info : PackageInfo
  errors : List AddError
  headRequests : Nat
  cached : Bool
deriving DecidableEq, Repr

/-- Function `str::parse::<u64>` from the Rust standard library (the
`.parse::<u64>().ok()` step of the header chain): strings of decimal digits
parse to their value, anything else fails. -/
def parseNat? (s : String) : Option Nat :=
  if s.data ≠ [] ∧ s.data.all (fun c => c.isDigit) then
    some (s.data.foldl (fun n c => n * 10 + (c.toNat - 48)) 0)
  else none

/-- The body of the per-package loop of `ResolveSize::run`: set
`package_name`, skip probing if the cached archive exists under
`<cache dir>/pkg/`, otherwise HEAD the URL; a send error is recorded as
`Error::ResolveNet`; on a 2xx response the size is parsed from the
`content-length` header (not from the `content_length()` accessor) and
stored in `size` and `download_size`. -/
def resolveSizeStep (config : Config) (cacheExists : List String)
    (head : Except ReqError HeadResp) (info : PackageInfo) : SizeStep :=
  let package_name :=
    info.name ++ "-" ++ info.version_full ++ "." ++ info.arch ++
      ".bottle.tar.gz"
  let info := { info with package_name := package_name }
  if (config.cache_dir ++ "/pkg/" ++ package_name) ∈ cacheExists then
    { info := info, errors := [], headRequests := 0, cached := true }
  else
    match head with
    | .error e =>
      { info := info, errors := [.ResolveNet info e], headRequests := 1,
        cached := false }
    | .ok resp =>
      if 200 ≤ resp.status ∧ resp.status < 300 then
        let size :=
          ((lookupA resp.headers "content-length").bind parseNat?).getD 0
        { info := { info with size := size, download_size := size },
          errors := [], headRequests := 1, cached := false }
      else
        { info := info, errors := [], headRequests := 1, cached := false }

/-- System `ResolveSize::run` over the package list, threading the progress-bar
length: the bar is created with the total package count and decremented once
for every package whose cached archive already exists. -/
def resolveSizeRunAux (config : Config) (cacheExists : List String)
    (pbLen : Nat) :
    List (PackageInfo × Except ReqError HeadResp) → List SizeStep × Nat
  | [] => ([], pbLen)
  | (info, head) :: rest =>
    let step := resolveSizeStep config cacheExists head info
    let pbLen' := if step.cached then pbLen - 1 else pbLen
    (step :: (resolveSizeRunAux config cacheExists pbLen' rest).1,
     (resolveSizeRunAux config cacheExists pbLen' rest).2)

/-- System `ResolveSize::run`: the progress bar starts at the number of packages. -/
def resolveSizeRun (config : Config) (cacheExists : List String)
    (entries : List (PackageInfo × Except ReqError HeadResp)) :
    List SizeStep × Nat :=
  resolveSizeRunAux config cacheExists entries.length entries

/-! ### Helper lemmas for the resolution systems -/

theorem findArch_map_fst (files : List (String × BottleFile)) :
    ∀ l, (findArch files l).map Prod.fst =
      l.find? (fun a => (lookupA files a).isSome) := by
  intro l
  induction l with
  | nil => rfl
  | cons a rest ih =>
    cases h : lookupA files a with
    | some b => simp [findArch, h, List.find?]
    | none => simp [findArch, h, List.find?, ih]

theorem findArch_lookup (files : List (String × BottleFile)) :
    ∀ l arch b, findArch files l = some (arch, b) →
      lookupA files arch = some b := by
  intro l
  induction l with
  | nil => intro arch b h; simp [findArch] at h
  | cons a rest ih =>
    intro arch b h
    cases ha : lookupA files a with
    | some b' =>
      simp only [findArch, ha] at h
      obtain ⟨rfl, rfl⟩ := Prod.mk.injEq .. ▸ (Option.some.injEq .. ▸ h)
      exact ha
    | none =>
      simp only [findArch, ha] at h
      exact ih arch b h

/-- After a successful architecture match, the step's resulting info carries
that architecture whatever the later branches do. -/
theorem resolveUrlStep_arch (config : Config) (formula : Formula)
    (info : PackageInfo) (bottles : Bottles) (arch : String) (b : BottleFile)
    (hchan : lookupA formula.bottle "stable" = some bottles)
    (hfind : findArch bottles.files
      (config.target :: "all" :: config.os_fallback) = some (arch, b)) :
    (resolveUrlStep config formula info).info.arch = arch := by
  simp only [resolveUrlStep, hchan, hfind]
  cases hrel : parseRelocate b.cellar with
  | error e => simp
  | ok mode =>
    cases hm : config.mirror_list with
    | nil => simp
    | cons mirror rest =>
      by_cases ho : mirror.oci = true
      · simp [ho]
      · simp [ho]

/-! ### Claim theorems for the resolution systems -/

/-- C1: the claim fails on the code.  `ResolveDeps::run` iterates
`for name in self.names.pop_front()`, and `pop_front` returns an `Option`,
so one run call processes at most the single front element of the queue.
At the input (requested `["a"]`, Formula Store: `a` with dependency `b`, `b`
with none) the run inserts only `a`, leaves `b` queued and unresolved, and
the queue does not empty. -/
theorem c1_resolve_deps_single_iteration :
    ResolveDeps.run ⟨["a"], []⟩ [("a", 0), ("b", 1)]
      [(0, ⟨"a", "a", "1.0", 0, ["b"], []⟩),
       (1, ⟨"b", "b", "1.0", 0, [], []⟩)] [] [] =
      (⟨["b"], []⟩, [(0, (PackageInfo.new "a").with_name "a" "1.0" 0)],
       [(0, .Resolve)]) ∧
    lookupA (ResolveDeps.run ⟨["a"], []⟩ [("a", 0), ("b", 1)]
      [(0, ⟨"a", "a", "1.0", 0, ["b"], []⟩),
       (1, ⟨"b", "b", "1.0", 0, [], []⟩)] [] []).2.1 1 = none ∧
    (ResolveDeps.run ⟨["a"], []⟩ [("a", 0), ("b", 1)]
      [(0, ⟨"a", "a", "1.0", 0, ["b"], []⟩),
       (1, ⟨"b", "b", "1.0", 0, [], []⟩)] [] []).1.names ≠ [] := by
  refine ⟨by decide, by decide, by decide⟩

/-- C5: architecture selection tries, in order, the Config target, the
literal "all", then each Config OS-fallback entry; the first architecture
present in the bottle file map is stored on the package; with no match the
step records an `Error::Prebuilt` and logs the target, the available
architectures and the package name, leaving the info unchanged. -/
theorem c5_arch_selection (config : Config) (formula : Formula)
    (info : PackageInfo) (bottles : Bottles)
    (hchan : lookupA formula.bottle "stable" = some bottles) :
    ((findArch bottles.files
        (config.target :: "all" :: config.os_fallback)).map Prod.fst =
      (config.target :: "all" :: config.os_fallback).find?
        (fun a => (lookupA bottles.files a).isSome)) ∧
    (∀ arch b,
      findArch bottles.files (config.target :: "all" :: config.os_fallback) =
        some (arch, b) →
      lookupA bottles.files arch = some b ∧
      (resolveUrlStep config formula info).info.arch = arch) ∧
    (findArch bottles.files (config.target :: "all" :: config.os_fallback) =
        none →
      resolveUrlStep config formula info =
        { info := info, errors := [.Prebuilt info],
          logs := [.noBottle config.target (bottles.files.map Prod.fst)
            info.name] }) := by
  refine ⟨findArch_map_fst bottles.files _, ?_, ?_⟩
  · intro arch b hfind
    exact ⟨findArch_lookup bottles.files _ arch b hfind,
      resolveUrlStep_arch config formula info bottles arch b hchan hfind⟩
  · intro hnone
    simp only [resolveUrlStep, hchan, hnone]

theorem c5_arch_selection_witness :
    lookupA ([("all", ⟨"https://u", "s", ":any"⟩)] :
        List (String × BottleFile)) "all" =
      some ⟨"https://u", "s", ":any"⟩ ∧
    (resolveUrlStep ⟨"x86_64", [], [], "/c"⟩
      ⟨"foo", "foo", "1.0", 0, [],
        [("stable", ⟨0, [("all", ⟨"https://u", "s", ":any"⟩)]⟩)]⟩
      (PackageInfo.new "foo")).info.arch = "all" ∧
    resolveUrlStep ⟨"t", [], [], "/c"⟩
      ⟨"bar", "bar", "1.0", 0, [],
        [("stable", ⟨0, [("x1", ⟨"https://u", "s", ":any"⟩)]⟩)]⟩
      (PackageInfo.new "bar") =
      { info := PackageInfo.new "bar",
        errors := [.Prebuilt (PackageInfo.new "bar")],
        logs := [.noBottle "t" ["x1"] "bar"] } := by
  have h1 := (c5_arch_selection ⟨"x86_64", [], [], "/c"⟩
    ⟨"foo", "foo", "1.0", 0, [],
      [("stable", ⟨0, [("all", ⟨"https://u", "s", ":any"⟩)]⟩)]⟩
    (PackageInfo.new "foo")
    ⟨0, [("all", ⟨"https://u", "s", ":any"⟩)]⟩ (by decide)).2.1 "all"
    ⟨"https://u", "s", ":any"⟩ (by decide)
  have h2 := (c5_arch_selection ⟨"t", [], [], "/c"⟩
    ⟨"bar", "bar", "1.0", 0, [],
      [("stable", ⟨0, [("x1", ⟨"https://u", "s", ":any"⟩)]⟩)]⟩
    (PackageInfo.new "bar")
    ⟨0, [("x1", ⟨"https://u", "s", ":any"⟩)]⟩ (by decide)).2.2 (by decide)
  exact ⟨h1.1, h1.2, h2⟩

/-- C6: after a successful architecture match and relocation-mode parse, the
URL is built from the first mirror when the mirror list is non-empty — an OCI
mirror gives `{mirror}/{name with @ as /}/blobs/sha256:{sha256}`, a plain
mirror gives `{mirror}/{name}-{version}.{arch}.bottle[.{rebuild}].tar.gz`
with the rebuild segment exactly when the rebuild count is nonzero — and
from the bottle's direct URL when there are no mirrors. -/
theorem c6_url_construction (config : Config) (formula : Formula)
    (info : PackageInfo) (bottles : Bottles) (arch : String)
    (bottle : BottleFile) (mode : RelocateMode)
    (hchan : lookupA formula.bottle "stable" = some bottles)
    (hfind : findArch bottles.files
      (config.target :: "all" :: config.os_fallback) = some (arch, bottle))
    (hrel : parseRelocate bottle.cellar = .ok mode) :
    (∀ mirror rest, config.mirror_list = mirror :: rest → mirror.oci = true →
      (resolveUrlStep config formula info).info.url =
        mirror.url ++ "/" ++ replaceChar info.name '@' '/' ++
          "/blobs/sha256:" ++ bottle.sha256) ∧
    (∀ mirror rest, config.mirror_list = mirror :: rest → mirror.oci = false →
      (resolveUrlStep config formula info).info.url =
        mirror.url ++ "/" ++ info.name ++ "-" ++ info.version_full ++ "." ++
          arch ++ ".bottle" ++
          (if bottles.rebuild ≠ 0 then "." ++ toString bottles.rebuild
           else "") ++ ".tar.gz") ∧
    (config.mirror_list = [] →
      (resolveUrlStep config formula info).info.url = bottle.url) := by
  refine ⟨?_, ?_, ?_⟩
  · intro mirror rest hm ho
    simp [resolveUrlStep, hchan, hfind, hrel, hm, ho]
  · intro mirror rest hm ho
    simp [resolveUrlStep, hchan, hfind, hrel, hm, ho]
  · intro hm
    simp [resolveUrlStep, hchan, hfind, hrel, hm]

theorem c6_url_construction_witness :
    (resolveUrlStep ⟨"arm64", [], [⟨"https://m/x", true⟩], "/c"⟩
      ⟨"foo", "foo", "1.0", 0, [],
        [("stable", ⟨2, [("arm64", ⟨"https://direct", "abcd", ":any"⟩)]⟩)]⟩
      ((PackageInfo.new "foo").with_name "foo" "1.0" 0)).info.url =
      "https://m/x/foo/blobs/sha256:abcd" ∧
    (resolveUrlStep ⟨"arm64", [], [⟨"https://m", false⟩], "/c"⟩
      ⟨"foo", "foo", "1.0", 0, [],
        [("stable", ⟨2, [("arm64", ⟨"https://direct", "abcd", ":any"⟩)]⟩)]⟩
      ((PackageInfo.new "foo").with_name "foo" "1.0" 0)).info.url =
      "https://m/foo-1.0.arm64.bottle.2.tar.gz" ∧
    (resolveUrlStep ⟨"arm64", [], [], "/c"⟩
      ⟨"foo", "foo", "1.0", 0, [],
        [("stable", ⟨2, [("arm64", ⟨"https://direct", "abcd", ":any"⟩)]⟩)]⟩
      ((PackageInfo.new "foo").with_name "foo" "1.0" 0)).info.url =
      "https://direct" := by
  have h1 := (c6_url_construction ⟨"arm64", [], [⟨"https://m/x", true⟩], "/c"⟩
    ⟨"foo", "foo", "1.0", 0, [],
      [("stable", ⟨2, [("arm64", ⟨"https://direct", "abcd", ":any"⟩)]⟩)]⟩
    ((PackageInfo.new "foo").with_name "foo" "1.0" 0)
    ⟨2, [("arm64", ⟨"https://direct", "abcd", ":any"⟩)]⟩ "arm64"
    ⟨"https://direct", "abcd", ":any"⟩ .default (by decide) (by decide)
    (by decide)).1 ⟨"https://m/x", true⟩ [] rfl rfl
  have h2 := (c6_url_construction ⟨"arm64", [], [⟨"https://m", false⟩], "/c"⟩
    ⟨"foo", "foo", "1.0", 0, [],
      [("stable", ⟨2, [("arm64", ⟨"https://direct", "abcd", ":any"⟩)]⟩)]⟩
    ((PackageInfo.new "foo").with_name "foo" "1.0" 0)
    ⟨2, [("arm64", ⟨"https://direct", "abcd", ":any"⟩)]⟩ "arm64"
    ⟨"https://direct", "abcd", ":any"⟩ .default (by decide) (by decide)
    (by decide)).2.1 ⟨"https://m", false⟩ [] rfl rfl
  have h3 := (c6_url_construction ⟨"arm64", [], [], "/c"⟩
    ⟨"foo", "foo", "1.0", 0, [],
      [("stable", ⟨2, [("arm64", ⟨"https://direct", "abcd", ":any"⟩)]⟩)]⟩
    ((PackageInfo.new "foo").with_name "foo" "1.0" 0)
    ⟨2, [("arm64", ⟨"https://direct", "abcd", ":any"⟩)]⟩ "arm64"
    ⟨"https://direct", "abcd", ":any"⟩ .default (by decide) (by decide)
    (by decide)).2.2 rfl
  exact ⟨h1.trans (by decide), h2.trans (by decide), h3.trans (by decide)⟩

/-- C7: the claim fails on the code.  The `Stage` enum of `add.rs` has only
the variants `Resolve` and `ResolveUrl`, and `ResolveUrlSystem::run` never
inserts into its `Stage` storage: at a package whose URL resolution succeeds
(no error is pushed), the stage after the run is still `Stage.Resolve`. -/
theorem c7_stage_not_advanced :
    (resolveUrlRun ⟨"arm64", [], [], "/c"⟩
      [⟨0, ⟨"a", "a", "1.0", 0, [],
          [("stable", ⟨0, [("arm64", ⟨"https://u", "s", ":any"⟩)]⟩)]⟩,
        (PackageInfo.new "a").with_name "a" "1.0" 0, .Resolve⟩]).2.1 = [] ∧
    (resolveUrlRun ⟨"arm64", [], [], "/c"⟩
      [⟨0, ⟨"a", "a", "1.0", 0, [],
          [("stable", ⟨0, [("arm64", ⟨"https://u", "s", ":any"⟩)]⟩)]⟩,
        (PackageInfo.new "a").with_name "a" "1.0" 0, .Resolve⟩]).1.map
      (fun e => e.stage) = [Stage.Resolve] := by
  refine ⟨by decide, by decide⟩

/-- The final progress-bar length after `ResolveSize::run` is the starting
length minus the number of cached packages. -/
theorem resolveSizeRunAux_total (config : Config) (cacheExists : List String) :
    ∀ (entries : List (PackageInfo × Except ReqError HeadResp)) (n : Nat),
      (resolveSizeRunAux config cacheExists n entries).2 =
        n - ((resolveSizeRunAux config cacheExists n entries).1.filter
          SizeStep.cached).length := by
  intro entries
  induction entries with
  | nil => intro n; simp [resolveSizeRunAux]
  | cons e rest ih =>
    intro n
    obtain ⟨info, head⟩ := e
    simp only [resolveSizeRunAux]
    by_cases hc : (resolveSizeStep config cacheExists head info).cached = true
    · rw [if_pos hc, List.filter_cons_of_pos hc, ih (n - 1),
        List.length_cons]
      omega
    · rw [if_neg hc, List.filter_cons_of_neg hc]
      exact ih n

/-- C8: the size-resolution pass sets the cache filename
`<name>-<version>.<arch>.bottle.tar.gz`; if that archive exists under
`<cache dir>/pkg/` the HEAD probe is skipped and the package is excluded
from the progress total; otherwise on a 2xx response the size is read from
the `content-length` header — independently of the response's
`content_length()` convenience accessor — and a network failure is recorded
as a per-package `ResolveNet` error with the size fields left unchanged
(zero stays zero). -/
theorem c8_size_resolution (config : Config) (cacheExists : List String)
    (head : Except ReqError HeadResp) (info : PackageInfo) :
    (resolveSizeStep config cacheExists head info).info.package_name =
      info.name ++ "-" ++ info.version_full ++ "." ++ info.arch ++
        ".bottle.tar.gz" ∧
    (config.cache_dir ++ "/pkg/" ++ (info.name ++ "-" ++ info.version_full ++
        "." ++ info.arch ++ ".bottle.tar.gz") ∈ cacheExists →
      (resolveSizeStep config cacheExists head info).headRequests = 0 ∧
      (resolveSizeStep config cacheExists head info).cached = true) ∧
    (config.cache_dir ++ "/pkg/" ++ (info.name ++ "-" ++ info.version_full ++
        "." ++ info.arch ++ ".bottle.tar.gz") ∉ cacheExists →
      ∀ resp, head = .ok resp → 200 ≤ resp.status → resp.status < 300 →
        (resolveSizeStep config cacheExists head info).info.size =
          ((lookupA resp.headers "content-length").bind parseNat?).getD 0 ∧
        (resolveSizeStep config cacheExists head info).info.download_size =
          ((lookupA resp.headers "content-length").bind parseNat?).getD 0) ∧
    (∀ resp cl, resolveSizeStep config cacheExists
        (.ok ⟨resp.status, cl, resp.headers⟩) info =
      resolveSizeStep config cacheExists (.ok resp) info) ∧
    (config.cache_dir ++ "/pkg/" ++ (info.name ++ "-" ++ info.version_full ++
        "." ++ info.arch ++ ".bottle.tar.gz") ∉ cacheExists →
      ∀ e, head = .error e →
        (resolveSizeStep config cacheExists head info).errors =
          [.ResolveNet (resolveSizeStep config cacheExists head info).info e] ∧
        (resolveSizeStep config cacheExists head info).info.size = info.size ∧
        (resolveSizeStep config cacheExists head info).info.download_size =
          info.download_size) ∧
    (∀ entries, (resolveSizeRun config cacheExists entries).2 =
      entries.length -
        ((resolveSizeRun config cacheExists entries).1.filter
          (fun s => s.cached)).length) := by
  refine ⟨?_, ?_, ?_, ?_, ?_, ?_⟩
  · by_cases hmem : config.cache_dir ++ "/pkg/" ++ (info.name ++ "-" ++
        info.version_full ++ "." ++ info.arch ++ ".bottle.tar.gz") ∈ cacheExists
    · simp [resolveSizeStep, hmem]
    · cases head with
      | error e => simp [resolveSizeStep, hmem]
      | ok resp =>
        by_cases hst : 200 ≤ resp.status ∧ resp.status < 300
        · simp [resolveSizeStep, hmem, hst]
        · simp [resolveSizeStep, hmem, hst]
  · intro hmem
    simp [resolveSizeStep, hmem]
  · intro hmem resp hresp h200 h300
    subst hresp
    simp [resolveSizeStep, hmem, h200, h300]
  · intro resp cl
    by_cases hmem : config.cache_dir ++ "/pkg/" ++ (info.name ++ "-" ++
        info.version_full ++ "." ++ info.arch ++ ".bottle.tar.gz") ∈ cacheExists
    · simp [resolveSizeStep, hmem]
    · by_cases hst : 200 ≤ resp.status ∧ resp.status < 300
      · simp [resolveSizeStep, hmem, hst]
      · simp [resolveSizeStep, hmem, hst]
  · intro hmem e hhead
    subst hhead
    simp [resolveSizeStep, hmem]
  · intro entries
    exact resolveSizeRunAux_total config cacheExists entries entries.length

theorem c8_size_resolution_witness :
    (resolveSizeStep ⟨"arm64", [], [], "/cache"⟩
      ["/cache/pkg/foo-1.0.arm64.bottle.tar.gz"] (.error ⟨1⟩)
      ⟨"foo", "foo", "1.0", 0, "1.0", "arm64", 0, .default, "", "", 0, 0, ""⟩
        |>.headRequests) = 0 ∧
    (resolveSizeStep ⟨"arm64", [], [], "/cache"⟩ [] (.ok ⟨200, some 0,
        [("content-length", "123")]⟩)
      ⟨"foo", "foo", "1.0", 0, "1.0", "arm64", 0, .default, "", "", 0, 0, ""⟩
        |>.info.size) = 123 ∧
    (resolveSizeStep ⟨"arm64", [], [], "/cache"⟩ [] (.error ⟨1⟩)
      ⟨"foo", "foo", "1.0", 0, "1.0", "arm64", 0, .default, "", "", 0, 0, ""⟩
        |>.info.size) = 0 := by
  have h1 := (c8_size_resolution ⟨"arm64", [], [], "/cache"⟩
    ["/cache/pkg/foo-1.0.arm64.bottle.tar.gz"] (.error ⟨1⟩)
    ⟨"foo", "foo", "1.0", 0, "1.0", "arm64", 0, .default, "", "", 0, 0, ""⟩).2.1
    (by decide)
  have h2 := (c8_size_resolution ⟨"arm64", [], [], "/cache"⟩ []
    (.ok ⟨200, some 0, [("content-length", "123")]⟩)
    ⟨"foo", "foo", "1.0", 0, "1.0", "arm64", 0, .default, "", "", 0, 0,
      ""⟩).2.2.1 (by decide)
    ⟨200, some 0, [("content-length", "123")]⟩ rfl (by decide) (by decide)
  have h3 := (c8_size_resolution ⟨"arm64", [], [], "/cache"⟩ [] (.error ⟨1⟩)
    ⟨"foo", "foo", "1.0", 0, "1.0", "arm64", 0, .default, "", "", 0, 0,
      ""⟩).2.2.2.2.1 (by decide) ⟨1⟩ rfl
  exact ⟨h1.1, h2.1.trans (by decide), h3.2.1.trans (by decide)⟩

end PacTree
